import Mathlib

set_option maxHeartbeats 1000000

/-!
Verification of the flygym path-integration / vision-arena core:
a shallow embedding of `flygym/examples/path_integration/controller.py`
(`WalkingState`, `RandomExplorationController`, `PathIntegrationNMF`) and of the
configuration-validation logic of
`flygym/examples/vision_connectome_model/arena.py` (`MovingFlyArena.__init__`),
together with theorems settling the specification claims.

Machine reals (numpy float64) are modelled by `ℝ`; Python exceptions
(AttributeError / TypeError / KeyError / ValueError) are modelled by `Option` /
`Except` results.
-/

/-- Walking states of the random exploration controller (Python enum `WalkingState`). -/
inductive WalkingState where
  | FORWARD
  | TURN_LEFT
  | TURN_RIGHT
  | STOP
  deriving DecidableEq

/-- Model of `np.random.RandomState(seed)`. The seeded generator is abstracted as
three oracle streams (uniform draws, standard-normal draws, binary-choice draws)
together with a cursor `pos` counting how many samples have been consumed. Each
sampling call reads its stream at `pos` and advances `pos` by one; the streams are
fixed at construction (they are what the seed determines) and no operation ever
replaces them, which models that the generator is never reseeded. -/
structure RandomState where
  uniforms : ℕ → ℝ
  normals : ℕ → ℝ
  choices : ℕ → Bool
  pos : ℕ

/-- Model of `random_state.rand()`: one uniform [0,1) draw. -/
def RandomState.rand (r : RandomState) : ℝ × RandomState :=
  (r.uniforms r.pos, { r with pos := r.pos + 1 })

/-- Model of `random_state.normal(mean, std)`: one normal draw with the given mean
and standard deviation, represented as `mean + std * z` where `z` is the next
standard-normal oracle value. -/
def RandomState.normal (r : RandomState) (mean std : ℝ) : ℝ × RandomState :=
  (mean + std * r.normals r.pos, { r with pos := r.pos + 1 })

/-- Model of `random_state.choice([WalkingState.TURN_LEFT, WalkingState.TURN_RIGHT])`:
one uniform binary draw deciding between the two turn states. -/
def RandomState.choice (r : RandomState) : WalkingState × RandomState :=
  ((if r.choices r.pos then WalkingState.TURN_LEFT else WalkingState.TURN_RIGHT),
   { r with pos := r.pos + 1 })

/-- State of a `RandomExplorationController` instance
(`controller.py`, `RandomExplorationController.__init__`).
`curr_turn_duration` models the Python attribute `_curr_turn_duration`
(initialised to `None`); `curr_state_start_time` is an `Option` because
`__init__` does not assign `curr_state_start_time` at all — it only comes into
existence when a forward-to-turn transition first assigns it. The three drive
fields hold the entries of the `dn_drives` dict built in `__init__`. -/
structure RandomExplorationController where
  random_state : RandomState
  dt : ℝ
  init_time : ℝ
  curr_time : ℝ
  curr_state : WalkingState
  curr_turn_duration : Option ℝ
  curr_state_start_time : Option ℝ
  forward_dn_drive : ℝ × ℝ
  left_turn_dn_drive : ℝ × ℝ
  right_turn_dn_drive : ℝ × ℝ
  turn_duration_mean : ℝ
  turn_duration_std : ℝ
  lambda_turn : ℝ

/-- The `dn_drives` dict of the controller: it has entries for `FORWARD`,
`TURN_LEFT` and `TURN_RIGHT` only; looking up `STOP` is a `KeyError`, modelled
as `none`. -/
def dn_drives (c : RandomExplorationController) : WalkingState → Option (ℝ × ℝ)
  | WalkingState.FORWARD => some c.forward_dn_drive
  | WalkingState.TURN_LEFT => some c.left_turn_dn_drive
  | WalkingState.TURN_RIGHT => some c.right_turn_dn_drive
  | WalkingState.STOP => none

/-- Model of `RandomExplorationController.__init__`. The argument `rng` stands for
the streams that `np.random.RandomState(seed)` derives from the seed; a freshly
constructed generator has consumed no samples, hence `pos := 0`. -/
def mkController (dt : ℝ)
    (forward_dn_drive left_turn_dn_drive right_turn_dn_drive : ℝ × ℝ)
    (turn_duration_mean turn_duration_std lambda_turn : ℝ)
    (rng : RandomState) (init_time : ℝ) : RandomExplorationController :=
  { random_state := { rng with pos := 0 }
    dt := dt
    init_time := init_time
    curr_time := 0
    curr_state := WalkingState.FORWARD
    curr_turn_duration := none
    curr_state_start_time := none
    forward_dn_drive := forward_dn_drive
    left_turn_dn_drive := left_turn_dn_drive
    right_turn_dn_drive := right_turn_dn_drive
    turn_duration_mean := turn_duration_mean
    turn_duration_std := turn_duration_std
    lambda_turn := lambda_turn }

/-- The forward-to-turn block of `RandomExplorationController.step`
(`controller.py` lines 54-64): when in `FORWARD`, draw one uniform sample; if it
exceeds `exp(-lambda_turn * dt)`, sample a turn duration (unclamped) and a turn
direction, and record `curr_state_start_time := curr_time` (the pre-advance time). -/
noncomputable def forwardTurnTransition (c : RandomExplorationController) :
    RandomExplorationController :=
  if c.curr_state = WalkingState.FORWARD then
    let p_nochange := Real.exp (-c.lambda_turn * c.dt)
    match c.random_state.rand with
    | (u, r1) =>
      if u > p_nochange then
        match r1.normal c.turn_duration_mean c.turn_duration_std with
        | (d, r2) =>
          match r2.choice with
          | (s, r3) =>
            { c with
                random_state := r3
                curr_turn_duration := some d
                curr_state := s
                curr_state_start_time := some c.curr_time }
      else { c with random_state := r1 }
  else c

/-- The turn-to-forward block of `RandomExplorationController.step`
(`controller.py` lines 66-69): when in a turn state, compare the elapsed time in
the state against the pending turn duration and revert to `FORWARD` when strictly
exceeded. Reading an unset `curr_state_start_time` (AttributeError) or comparing
against a `None` duration (TypeError) is modelled as `none`. -/
noncomputable def turnForwardTransition (c : RandomExplorationController) :
    Option RandomExplorationController :=
  if c.curr_state = WalkingState.TURN_LEFT ∨ c.curr_state = WalkingState.TURN_RIGHT then
    match c.curr_state_start_time, c.curr_turn_duration with
    | some t0, some d =>
      if c.curr_time - t0 > d then
        some { c with
                 curr_state := WalkingState.FORWARD
                 curr_state_start_time := some c.curr_time }
      else some c
    | _, _ => none
  else some c

/-- Model of `RandomExplorationController.step` (`controller.py` lines 47-73):
the settling early-return, then the two transition blocks, then `curr_time += dt`
and the `dn_drives[curr_state]` lookup. A raised Python exception is `none`. -/
noncomputable def step (c : RandomExplorationController) :
    Option (WalkingState × (ℝ × ℝ) × RandomExplorationController) :=
  if c.curr_time < c.init_time then
    let c' := { c with curr_time := c.curr_time + c.dt }
    match dn_drives c' WalkingState.FORWARD with
    | some drv => some (WalkingState.FORWARD, drv, c')
    | none => none
  else
    match turnForwardTransition (forwardTurnTransition c) with
    | none => none
    | some c2 =>
      let c3 := { c2 with curr_time := c2.curr_time + c2.dt }
      match dn_drives c3 c3.curr_state with
      | some drv => some (c3.curr_state, drv, c3)
      | none => none

/-- Iterated stepping: `run c n` performs `n` consecutive `step` calls, collecting
the returned (state, drive) pairs, and propagating any raised exception as `none`. -/
noncomputable def run (c : RandomExplorationController) :
    ℕ → Option (List (WalkingState × (ℝ × ℝ)) × RandomExplorationController)
  | 0 => some ([], c)
  | n + 1 =>
    match step c with
    | none => none
    | some (s, d, c1) =>
      match run c1 n with
      | none => none
      | some (tr, c2) => some ((s, d) :: tr, c2)

/-- Model of `np.arctan2 (y, x)`: the angle of the point `(x, y)`, embedded via the
argument of the complex number `x + y i`. -/
noncomputable def atan2 (y x : ℝ) : ℝ := Complex.arg ⟨x, y⟩

/-- The angle computation of `absolute_to_relative_pos`: normalise `heading` by
its Euclidean norm (`np.linalg.norm`) and take `np.arctan2(heading[1], heading[0])`
of the normalised vector. -/
noncomputable def headingAngle (heading : ℝ × ℝ) : ℝ :=
  atan2 (heading.2 / Real.sqrt (heading.1 ^ 2 + heading.2 ^ 2))
    (heading.1 / Real.sqrt (heading.1 ^ 2 + heading.2 ^ 2))

/-- Application of the rotation matrix of `absolute_to_relative_pos` to one row:
`rot_matrix = [[cos(-angle), -sin(-angle)], [sin(-angle), cos(-angle)]]` and the
row-wise product `rel_pos . rot_matrix^T` sends the row `(x, y)` to
`(x * cos(-angle) + y * (-sin(-angle)), x * sin(-angle) + y * cos(-angle))`. -/
noncomputable def rotateNegAngle (angle : ℝ) (p : ℝ × ℝ) : ℝ × ℝ :=
  (p.1 * Real.cos (-angle) + p.2 * (-Real.sin (-angle)),
   p.1 * Real.sin (-angle) + p.2 * Real.cos (-angle))

/-- Model of the static method `PathIntegrationNMF.absolute_to_relative_pos`
(`controller.py` lines 103-114): translate by `base_pos`
(`rel_pos = pos - base_pos`), then rotate every translated row by the matrix for
the negated heading angle. Point matrices are lists of (x, y) rows, one per leg. -/
noncomputable def absolute_to_relative_pos (pos : List (ℝ × ℝ))
    (base_pos heading : ℝ × ℝ) : List (ℝ × ℝ) :=
  (pos.map (fun p => p - base_pos)).map (rotateNegAngle (headingAngle heading))

/-- The part of the observation returned by the wrapped stepping service
(`super().step(action)` in `PathIntegrationNMF.step`) that the stride computation
reads: `obs["fly"][0, :2]`, `obs["fly_orientation"][:2]`, and
`obs["end_effectors"][:, :2]` (one (x, y) row per leg). -/
structure PIObs where
  fly : ℝ × ℝ
  fly_orientation : ℝ × ℝ
  end_effectors : List (ℝ × ℝ)

/-- The stride bookkeeping of `PathIntegrationNMF.step` (`controller.py` lines
91-99): given the stored `_last_end_effector_pos` history (`none` right after
construction) and the observation returned by the wrapped service, produce the
`stride_diff_unmasked` matrix attached to the observation and the new history.
`np.zeros_like` is the all-zero list of the same shape; elementwise matrix
subtraction is `zipWith`. -/
noncomputable def pathIntegrationStep (last : Option (List (ℝ × ℝ))) (obs : PIObs) :
    List (ℝ × ℝ) × List (ℝ × ℝ) :=
  let ee_pos_rel := absolute_to_relative_pos obs.end_effectors obs.fly obs.fly_orientation
  let ee_diff :=
    match last with
    | none => ee_pos_rel.map (fun _ => ((0 : ℝ), (0 : ℝ)))
    | some prev => List.zipWith (fun a b => a - b) ee_pos_rel prev
  (ee_diff, ee_pos_rel)

/-- Rotation of a point by angle `θ` (counter-clockwise); used to state the
round-trip property of `absolute_to_relative_pos`. -/
noncomputable def rotatePoint (θ : ℝ) (p : ℝ × ℝ) : ℝ × ℝ :=
  (p.1 * Real.cos θ - p.2 * Real.sin θ, p.1 * Real.sin θ + p.2 * Real.cos θ)

/-- Heap of numpy array objects, used to model Python object identity for the
2-vector drive arrays: an array object is a natural-number id, and the heap maps
ids to current contents. -/
structure ArrayStore where
  contents : ℕ → ℝ × ℝ

/-- In-place mutation of a numpy array object (what a caller would do to the
returned drive command). -/
def writeArray (st : ArrayStore) (i : ℕ) (v : ℝ × ℝ) : ArrayStore :=
  ⟨fun j => if j = i then v else st.contents j⟩

/-- Object ids of the three arrays allocated by `np.array(...)` in
`RandomExplorationController.__init__` and stored in the `dn_drives` dict. -/
def forwardArrayId : ℕ := 0

/-- Object id of the array stored under `TURN_LEFT`. -/
def leftTurnArrayId : ℕ := 1

/-- Object id of the array stored under `TURN_RIGHT`. -/
def rightTurnArrayId : ℕ := 2

/-- The `dn_drives` dict at the object-identity level: it stores the three array
objects allocated in `__init__`; no entry for `STOP`. -/
def dnDrivesRef : WalkingState → Option ℕ
  | WalkingState.FORWARD => some forwardArrayId
  | WalkingState.TURN_LEFT => some leftTurnArrayId
  | WalkingState.TURN_RIGHT => some rightTurnArrayId
  | WalkingState.STOP => none

/-- Heap produced by `__init__`: the three freshly allocated drive arrays hold the
constructor tuples. -/
def initialStore (forward_dn_drive left_turn_dn_drive right_turn_dn_drive : ℝ × ℝ) :
    ArrayStore :=
  ⟨fun i =>
    if i = forwardArrayId then forward_dn_drive
    else if i = leftTurnArrayId then left_turn_dn_drive
    else if i = rightTurnArrayId then right_turn_dn_drive
    else (0, 0)⟩

/-- The array object returned by `step`: both return statements
(`controller.py` lines 51 and 73) return `self.dn_drives[...]` itself — the dict
entry, with no copy taken — so the returned object is the stored array whose key is
the returned state. -/
noncomputable def stepReturnedRef (c : RandomExplorationController) : Option ℕ :=
  match step c with
  | some (s, _, _) => dnDrivesRef s
  | none => none

/-- Model of the validating part of `MovingFlyArena.__init__`
(`arena.py` lines 40-139): the fields assigned before validation, the
`move_direction` dispatch (which raises `ValueError("Invalid move_direction")` on
an unrecognised value), and the terrain dispatch (which raises
`ValueError` for a terrain other than "flat" or "blocks"). The mjcf scene
construction (ground, blocks, fly model, cameras) only acts on the external
`root_element` collaborator and is outside this model. -/
structure MovingFlyArena where
  terrain : String
  init_fly_pos : ℝ × ℝ × ℝ
  fly_pos : ℝ × ℝ × ℝ
  move_speed : ℝ
  curr_time : ℝ
  move_direction : String
  lateral_magnitude : ℝ
  y_mult : Int

/-- Model of `MovingFlyArena.__init__`. `randChoice` stands for the global
`np.random.choice([-1, 1])` draw used when `move_direction = "random"`; a raised
`ValueError` is `Except.error`. The `move_direction` check runs before the
terrain check, as in the source. -/
def mkMovingFlyArena (terrain : String) (obj_radius : ℝ) (init_fly_pos : ℝ × ℝ)
    (move_speed : ℝ) (move_direction : String) (lateral_magnitude : ℝ)
    (randChoice : Int) : Except String MovingFlyArena :=
  let pos3 : ℝ × ℝ × ℝ := (init_fly_pos.1, init_fly_pos.2, obj_radius)
  match (if move_direction = "left" then some (1 : Int)
         else if move_direction = "right" then some (-1 : Int)
         else if move_direction = "random" then some randChoice
         else none) with
  | none => Except.error "Invalid move_direction"
  | some y =>
    if terrain = "flat" ∨ terrain = "blocks" then
      Except.ok
        { terrain := terrain
          init_fly_pos := pos3
          fly_pos := pos3
          move_speed := move_speed
          curr_time := 0
          move_direction := move_direction
          lateral_magnitude := lateral_magnitude
          y_mult := y }
    else Except.error ("Invalid terrain " ++ terrain)

section BranchLemmas

/-- Settling branch of `step`: before `init_time`, the call only advances time and
returns `FORWARD` with the forward drive. -/
theorem step_settling (c : RandomExplorationController) (h : c.curr_time < c.init_time) :
    step c = some (WalkingState.FORWARD, c.forward_dn_drive,
      { c with curr_time := c.curr_time + c.dt }) := by
  simp [step, dn_drives, if_pos h]

/-- The forward-to-turn block is the identity when the state is not `FORWARD`. -/
theorem ftt_eq_of_not_forward (c : RandomExplorationController)
    (h : c.curr_state ≠ WalkingState.FORWARD) : forwardTurnTransition c = c := by
  simp [forwardTurnTransition, h]

/-- The forward-to-turn block when the uniform draw does not exceed the no-change
probability: no transition, exactly one sample consumed. -/
theorem ftt_eq_no_transition (c : RandomExplorationController)
    (hF : c.curr_state = WalkingState.FORWARD)
    (h : ¬ c.random_state.uniforms c.random_state.pos > Real.exp (-c.lambda_turn * c.dt)) :
    forwardTurnTransition c =
      { c with random_state := { c.random_state with pos := c.random_state.pos + 1 } } := by
  rw [neg_mul] at h
  simp [forwardTurnTransition, hF, RandomState.rand, h]

/-- The forward-to-turn block when the uniform draw exceeds the no-change
probability: a turn duration and direction are sampled (three samples consumed in
total) and the state start time is set to the pre-advance time. -/
theorem ftt_eq_transition (c : RandomExplorationController)
    (hF : c.curr_state = WalkingState.FORWARD)
    (h : c.random_state.uniforms c.random_state.pos > Real.exp (-c.lambda_turn * c.dt)) :
    forwardTurnTransition c =
      { c with
          random_state := { c.random_state with pos := c.random_state.pos + 3 }
          curr_turn_duration := some (c.turn_duration_mean +
            c.turn_duration_std * c.random_state.normals (c.random_state.pos + 1))
          curr_state := if c.random_state.choices (c.random_state.pos + 2)
            then WalkingState.TURN_LEFT else WalkingState.TURN_RIGHT
          curr_state_start_time := some c.curr_time } := by
  rw [neg_mul] at h
  simp [forwardTurnTransition, hF, RandomState.rand, RandomState.normal,
    RandomState.choice, h]

/-- The turn-to-forward block is the identity (and raises nothing) when the state
is not a turn state. -/
theorem tft_eq_of_not_turning (c : RandomExplorationController)
    (h : ¬ (c.curr_state = WalkingState.TURN_LEFT ∨ c.curr_state = WalkingState.TURN_RIGHT)) :
    turnForwardTransition c = some c := by
  simp [turnForwardTransition, h]

/-- The turn-to-forward block when the turn has exceeded its pending duration:
revert to `FORWARD` and reset the state start time to the pre-advance time. -/
theorem tft_eq_revert (c : RandomExplorationController)
    (ht : c.curr_state = WalkingState.TURN_LEFT ∨ c.curr_state = WalkingState.TURN_RIGHT)
    (t0 d : ℝ) (hst : c.curr_state_start_time = some t0)
    (hd : c.curr_turn_duration = some d) (h : c.curr_time - t0 > d) :
    turnForwardTransition c =
      some { c with
               curr_state := WalkingState.FORWARD
               curr_state_start_time := some c.curr_time } := by
  simp [turnForwardTransition, ht, hst, hd, h]

/-- The turn-to-forward block when the turn is still within its pending duration:
no change. -/
theorem tft_eq_stay (c : RandomExplorationController)
    (ht : c.curr_state = WalkingState.TURN_LEFT ∨ c.curr_state = WalkingState.TURN_RIGHT)
    (t0 d : ℝ) (hst : c.curr_state_start_time = some t0)
    (hd : c.curr_turn_duration = some d) (h : ¬ c.curr_time - t0 > d) :
    turnForwardTransition c = some c := by
  simp [turnForwardTransition, ht, hst, hd, h]

/-- Post-settling shape of `step`: once the two transition blocks have produced
`c2` and the drive lookup succeeds, the call advances time by `dt` at the very end
and returns the resulting state with the looked-up drive. -/
theorem step_post (c c2 : RandomExplorationController) (drv : ℝ × ℝ)
    (hns : ¬ c.curr_time < c.init_time)
    (h2 : turnForwardTransition (forwardTurnTransition c) = some c2)
    (h3 : dn_drives c2 c2.curr_state = some drv) :
    step c = some (c2.curr_state, drv, { c2 with curr_time := c2.curr_time + c2.dt }) := by
  have h3' : dn_drives { c2 with curr_time := c2.curr_time + c2.dt } c2.curr_state
      = some drv := h3
  simp only [step, if_neg hns, h2]
  simp [h3']

/-- Post-settling shape of `step` when the turn-to-forward block raises. -/
theorem step_post_none (c : RandomExplorationController)
    (hns : ¬ c.curr_time < c.init_time)
    (h2 : turnForwardTransition (forwardTurnTransition c) = none) :
    step c = none := by
  simp only [step, if_neg hns, h2]

end BranchLemmas

/-- Safety invariant of the controller: whenever the current state is a turn
state, the pending turn duration and the state start time have both been
assigned (so the turn-exit comparison reads no unset attribute and compares no
`None`). -/
def TurnVarsSet (c : RandomExplorationController) : Prop :=
  (c.curr_state = WalkingState.TURN_LEFT ∨ c.curr_state = WalkingState.TURN_RIGHT) →
    c.curr_turn_duration ≠ none ∧ c.curr_state_start_time ≠ none

/-- Reachability invariant: the state is one of the three states with a
`dn_drives` entry (never `STOP`), and the turn bookkeeping is set in turn states. -/
def GoodState (c : RandomExplorationController) : Prop :=
  (c.curr_state = WalkingState.FORWARD ∨ c.curr_state = WalkingState.TURN_LEFT ∨
    c.curr_state = WalkingState.TURN_RIGHT) ∧ TurnVarsSet c

section Preservation

/-- The forward-to-turn block never changes the time bookkeeping, the
configuration fields, or the random streams (it only advances the sample cursor
and the turn bookkeeping). -/
theorem ftt_fields (c : RandomExplorationController) :
    (forwardTurnTransition c).curr_time = c.curr_time ∧
    (forwardTurnTransition c).dt = c.dt ∧
    (forwardTurnTransition c).init_time = c.init_time ∧
    (forwardTurnTransition c).lambda_turn = c.lambda_turn ∧
    (forwardTurnTransition c).forward_dn_drive = c.forward_dn_drive ∧
    (forwardTurnTransition c).left_turn_dn_drive = c.left_turn_dn_drive ∧
    (forwardTurnTransition c).right_turn_dn_drive = c.right_turn_dn_drive ∧
    (forwardTurnTransition c).random_state.uniforms = c.random_state.uniforms ∧
    (forwardTurnTransition c).random_state.normals = c.random_state.normals ∧
    (forwardTurnTransition c).random_state.choices = c.random_state.choices := by
  by_cases hF : c.curr_state = WalkingState.FORWARD
  · by_cases hgt : c.random_state.uniforms c.random_state.pos >
        Real.exp (-c.lambda_turn * c.dt)
    · rw [ftt_eq_transition c hF hgt]; simp
    · rw [ftt_eq_no_transition c hF hgt]; simp
  · rw [ftt_eq_of_not_forward c hF]
    simp

/-- After the forward-to-turn block, either nothing but the sample cursor
changed, or the state is a turn state with both turn variables assigned. -/
theorem ftt_state (c : RandomExplorationController) :
    ((forwardTurnTransition c).curr_state = c.curr_state ∧
     (forwardTurnTransition c).curr_turn_duration = c.curr_turn_duration ∧
     (forwardTurnTransition c).curr_state_start_time = c.curr_state_start_time) ∨
    (((forwardTurnTransition c).curr_state = WalkingState.TURN_LEFT ∨
      (forwardTurnTransition c).curr_state = WalkingState.TURN_RIGHT) ∧
     (forwardTurnTransition c).curr_turn_duration ≠ none ∧
     (forwardTurnTransition c).curr_state_start_time ≠ none) := by
  by_cases hF : c.curr_state = WalkingState.FORWARD
  · by_cases hgt : c.random_state.uniforms c.random_state.pos >
        Real.exp (-c.lambda_turn * c.dt)
    · rw [ftt_eq_transition c hF hgt]
      refine Or.inr ⟨?_, by simp, by simp⟩
      by_cases hb : c.random_state.choices (c.random_state.pos + 2) <;> simp [hb]
    · rw [ftt_eq_no_transition c hF hgt]
      exact Or.inl ⟨rfl, rfl, rfl⟩
  · rw [ftt_eq_of_not_forward c hF]
    exact Or.inl ⟨rfl, rfl, rfl⟩

/-- The turn-to-forward block, when it does not raise, either leaves the
controller unchanged or reverts the state to `FORWARD` resetting the state start
time to the pre-advance time. -/
theorem tft_shape (c c2 : RandomExplorationController)
    (h : turnForwardTransition c = some c2) :
    c2 = c ∨ c2 = { c with
                      curr_state := WalkingState.FORWARD
                      curr_state_start_time := some c.curr_time } := by
  unfold turnForwardTransition at h
  split at h
  · split at h
    · split at h
      · exact Or.inr (by injection h with h; exact h.symm)
      · exact Or.inl (by injection h with h; exact h.symm)
    · exact absurd h (by simp)
  · exact Or.inl (by injection h with h; exact h.symm)

/-- The turn-to-forward block raises nothing as long as the safety invariant
holds. -/
theorem tft_total (c : RandomExplorationController) (h : TurnVarsSet c) :
    ∃ c2, turnForwardTransition c = some c2 := by
  by_cases ht : c.curr_state = WalkingState.TURN_LEFT ∨
      c.curr_state = WalkingState.TURN_RIGHT
  · obtain ⟨hd, hst⟩ := h ht
    obtain ⟨d, hd⟩ := Option.ne_none_iff_exists'.mp hd
    obtain ⟨t0, hst⟩ := Option.ne_none_iff_exists'.mp hst
    by_cases hcmp : c.curr_time - t0 > d
    · exact ⟨_, tft_eq_revert c ht t0 d hst hd hcmp⟩
    · exact ⟨_, tft_eq_stay c ht t0 d hst hd hcmp⟩
  · exact ⟨c, tft_eq_of_not_turning c ht⟩

/-- Controllers agreeing on the three drive fields have the same drive table. -/
theorem dn_drives_congr (c c' : RandomExplorationController)
    (hf : c'.forward_dn_drive = c.forward_dn_drive)
    (hl : c'.left_turn_dn_drive = c.left_turn_dn_drive)
    (hr : c'.right_turn_dn_drive = c.right_turn_dn_drive) (s : WalkingState) :
    dn_drives c' s = dn_drives c s := by
  cases s <;> simp [dn_drives, hf, hl, hr]

/-- A successful `step` preserves the configuration fields and the random
streams, advances the clock by exactly `dt`, and returns as drive command the
entry of the drive table at the returned state. -/
theorem step_shape (c : RandomExplorationController) (s : WalkingState)
    (d : ℝ × ℝ) (c' : RandomExplorationController)
    (h : step c = some (s, d, c')) :
    c'.dt = c.dt ∧ c'.init_time = c.init_time ∧ c'.lambda_turn = c.lambda_turn ∧
    c'.forward_dn_drive = c.forward_dn_drive ∧
    c'.left_turn_dn_drive = c.left_turn_dn_drive ∧
    c'.right_turn_dn_drive = c.right_turn_dn_drive ∧
    c'.random_state.uniforms = c.random_state.uniforms ∧
    c'.random_state.normals = c.random_state.normals ∧
    c'.random_state.choices = c.random_state.choices ∧
    c'.curr_time = c.curr_time + c.dt ∧
    dn_drives c s = some d := by
  by_cases hs : c.curr_time < c.init_time
  · rw [step_settling c hs] at h
    obtain ⟨h1, h2, h3⟩ : WalkingState.FORWARD = s ∧ c.forward_dn_drive = d ∧
        { c with curr_time := c.curr_time + c.dt } = c' := by
      simpa [Prod.ext_iff] using h
    subst h1; subst h2; subst h3
    simp [dn_drives]
  · unfold step at h
    rw [if_neg hs] at h
    rcases hm : turnForwardTransition (forwardTurnTransition c) with _ | c2
    · rw [hm] at h; exact absurd h (by simp)
    · rw [hm] at h
      obtain hff := ftt_fields c
      obtain hts := tft_shape _ _ hm
      have hc2 : c2.dt = c.dt ∧ c2.init_time = c.init_time ∧
          c2.lambda_turn = c.lambda_turn ∧
          c2.forward_dn_drive = c.forward_dn_drive ∧
          c2.left_turn_dn_drive = c.left_turn_dn_drive ∧
          c2.right_turn_dn_drive = c.right_turn_dn_drive ∧
          c2.random_state.uniforms = c.random_state.uniforms ∧
          c2.random_state.normals = c.random_state.normals ∧
          c2.random_state.choices = c.random_state.choices ∧
          c2.curr_time = c.curr_time := by
        rcases hts with hts | hts <;> subst hts <;>
          simp [hff.1, hff.2.1, hff.2.2.1, hff.2.2.2.1, hff.2.2.2.2.1,
            hff.2.2.2.2.2.1, hff.2.2.2.2.2.2.1, hff.2.2.2.2.2.2.2.1,
            hff.2.2.2.2.2.2.2.2]
      rcases hdd : dn_drives { c2 with curr_time := c2.curr_time + c2.dt }
          ({ c2 with curr_time := c2.curr_time + c2.dt } :
            RandomExplorationController).curr_state with _ | drv
      · simp only [hdd] at h; exact absurd h (by simp)
      · simp only [hdd] at h
        obtain ⟨h1, h2, h3⟩ : c2.curr_state = s ∧ drv = d ∧
            ({ c2 with curr_time := c2.curr_time + c2.dt } :
              RandomExplorationController) = c' := by
          simpa [Prod.ext_iff] using h
        subst h1; subst h2; subst h3
        have hdnc : dn_drives c = dn_drives c2 :=
          funext fun s => (dn_drives_congr c c2 hc2.2.2.2.1 hc2.2.2.2.2.1
            hc2.2.2.2.2.2.1 s).symm
        refine ⟨by simp [hc2.1], by simp [hc2.2.1], by simp [hc2.2.2.1],
          by simp [hc2.2.2.2.1], by simp [hc2.2.2.2.2.1], by simp [hc2.2.2.2.2.2.1],
          by simp [hc2.2.2.2.2.2.2.1], by simp [hc2.2.2.2.2.2.2.2.1],
          by simp [hc2.2.2.2.2.2.2.2.2.1],
          by simp [hc2.2.2.2.2.2.2.2.2.2, hc2.1], ?_⟩
        rw [hdnc]
        exact hdd

end Preservation

section RunLemmas

/-- A step from a good state succeeds, returns a non-`STOP` state, and lands in a
good state again. -/
theorem step_good (c : RandomExplorationController) (hg : GoodState c) :
    ∃ s drv c', step c = some (s, drv, c') ∧ GoodState c' ∧
      (s = WalkingState.FORWARD ∨ s = WalkingState.TURN_LEFT ∨
        s = WalkingState.TURN_RIGHT) := by
  by_cases hsett : c.curr_time < c.init_time
  · refine ⟨_, _, _, step_settling c hsett, ?_, Or.inl rfl⟩
    obtain ⟨hst, htv⟩ := hg
    exact ⟨hst, htv⟩
  · have hg1 : GoodState (forwardTurnTransition c) := by
      obtain ⟨hst, htv⟩ := hg
      rcases ftt_state c with ⟨h1, h2, h3⟩ | ⟨h1, h2, h3⟩
      · constructor
        · rw [h1]; exact hst
        · intro ht
          rw [h1] at ht
          obtain ⟨a, b⟩ := htv ht
          rw [h2, h3]
          exact ⟨a, b⟩
      · exact ⟨Or.inr h1, fun _ => ⟨h2, h3⟩⟩
    obtain ⟨c2, hm⟩ := tft_total _ hg1.2
    have hg2 : GoodState c2 := by
      rcases tft_shape _ _ hm with h | h
      · rw [h]; exact hg1
      · subst h
        exact ⟨Or.inl rfl, fun ht => by
          rcases ht with ht | ht <;> exact absurd ht (by simp)⟩
    obtain ⟨drv, hdrv⟩ : ∃ drv, dn_drives c2 c2.curr_state = some drv := by
      rcases hg2.1 with h | h | h <;> rw [h] <;> simp [dn_drives]
    refine ⟨c2.curr_state, drv, _, step_post c c2 drv hsett hm hdrv, ?_, hg2.1⟩
    exact ⟨hg2.1, fun ht => hg2.2 ht⟩

/-- Iterated stepping from a good state never raises, never reaches `STOP`, and
keeps the invariant. -/
theorem run_good (N : ℕ) :
    ∀ c, GoodState c → ∃ tr c', run c N = some (tr, c') ∧ GoodState c' ∧
      ∀ p, p ∈ tr → (p.1 = WalkingState.FORWARD ∨ p.1 = WalkingState.TURN_LEFT ∨
        p.1 = WalkingState.TURN_RIGHT) := by
  induction N with
  | zero => exact fun c hg => ⟨[], c, rfl, hg, by simp⟩
  | succ n ih =>
    intro c hg
    obtain ⟨s, drv, c1, hstep, hg1, hsok⟩ := step_good c hg
    obtain ⟨tr, c2, hrun, hg2, htr⟩ := ih c1 hg1
    refine ⟨(s, drv) :: tr, c2, ?_, hg2, ?_⟩
    · simp only [run, hstep, hrun]
    · intro p hp
      rcases List.mem_cons.mp hp with hp | hp
      · rw [hp]; exact hsok
      · exact htr p hp

/-- A step from `FORWARD` with turn rate zero stays in `FORWARD`: the no-change
probability is `exp 0 = 1` and a uniform [0,1) draw never exceeds it. -/
theorem lam0_step (c : RandomExplorationController)
    (hF : c.curr_state = WalkingState.FORWARD) (hlam : c.lambda_turn = 0)
    (hu : ∀ n, 0 ≤ c.random_state.uniforms n ∧ c.random_state.uniforms n < 1) :
    ∃ d c', step c = some (WalkingState.FORWARD, d, c') ∧
      c'.curr_state = WalkingState.FORWARD ∧ c'.lambda_turn = 0 ∧
      c'.random_state.uniforms = c.random_state.uniforms := by
  by_cases hsett : c.curr_time < c.init_time
  · exact ⟨_, _, step_settling c hsett, by simp [hF], by simp [hlam], by simp⟩
  · have hno : ¬ c.random_state.uniforms c.random_state.pos >
        Real.exp (-c.lambda_turn * c.dt) := by
      rw [hlam]
      simp only [neg_zero, zero_mul, Real.exp_zero]
      exact not_lt.mpr (le_of_lt (hu c.random_state.pos).2)
    have h1 := ftt_eq_no_transition c hF hno
    have h2 : turnForwardTransition (forwardTurnTransition c) =
        some (forwardTurnTransition c) := by
      apply tft_eq_of_not_turning
      rw [h1]
      simp [hF]
    have h3 : dn_drives (forwardTurnTransition c)
        (forwardTurnTransition c).curr_state =
        some (forwardTurnTransition c).forward_dn_drive := by
      rw [h1]
      simp [hF, dn_drives]
    have hstep := step_post c (forwardTurnTransition c) _ hsett h2 h3
    rw [h1] at hstep
    refine ⟨c.forward_dn_drive,
      { c with
          random_state := { c.random_state with pos := c.random_state.pos + 1 }
          curr_time := c.curr_time + c.dt }, ?_, hF, hlam, rfl⟩
    rw [← hF]
    exact hstep

/-- Iterated stepping with turn rate zero from `FORWARD` returns `FORWARD` on
every tick. -/
theorem run_lam0 (N : ℕ) :
    ∀ c, c.curr_state = WalkingState.FORWARD → c.lambda_turn = 0 →
      (∀ n, 0 ≤ c.random_state.uniforms n ∧ c.random_state.uniforms n < 1) →
      ∃ tr c', run c N = some (tr, c') ∧
        c'.curr_state = WalkingState.FORWARD ∧
        ∀ p, p ∈ tr → p.1 = WalkingState.FORWARD := by
  induction N with
  | zero => exact fun c hF _ _ => ⟨[], c, rfl, hF, by simp⟩
  | succ n ih =>
    intro c hF hlam hu
    obtain ⟨d, c1, hstep, hF1, hlam1, huni⟩ := lam0_step c hF hlam hu
    obtain ⟨tr, c2, hrun, hF2, htr⟩ := ih c1 hF1 hlam1 (by rw [huni]; exact hu)
    refine ⟨(WalkingState.FORWARD, d) :: tr, c2, ?_, hF2, ?_⟩
    · simp only [run, hstep, hrun]
    · intro p hp
      rcases List.mem_cons.mp hp with hp | hp
      · rw [hp]
      · exact htr p hp

/-- Iterated stepping never replaces the random streams: all randomness over an
episode comes from the single source fixed at construction. -/
theorem run_streams (N : ℕ) :
    ∀ c tr c', run c N = some (tr, c') →
      c'.random_state.uniforms = c.random_state.uniforms ∧
      c'.random_state.normals = c.random_state.normals ∧
      c'.random_state.choices = c.random_state.choices := by
  induction N with
  | zero =>
    intro c tr c' h
    obtain ⟨h1, h2⟩ : tr = [] ∧ c = c' := by simpa [run, Prod.ext_iff] using h
    subst h2
    exact ⟨rfl, rfl, rfl⟩
  | succ n ih =>
    intro c tr c' h
    rw [run] at h
    rcases hstep : step c with _ | ⟨s, d, c1⟩
    · rw [hstep] at h; exact absurd h (by simp)
    · simp only [hstep] at h
      rcases hrun : run c1 n with _ | ⟨tr1, c2⟩
      · simp only [hrun] at h; exact absurd h (by simp)
      · simp only [hrun] at h
        obtain ⟨h1, h2⟩ : (s, d) :: tr1 = tr ∧ c2 = c' := by
          simpa [Prod.ext_iff] using h
        subst h2
        obtain ⟨s1, s2, s3⟩ := ih c1 tr1 c2 hrun
        obtain hshape := step_shape c s d c1 hstep
        exact ⟨s1.trans hshape.2.2.2.2.2.2.1,
          s2.trans hshape.2.2.2.2.2.2.2.1,
          s3.trans hshape.2.2.2.2.2.2.2.2.1⟩

end RunLemmas

section WitnessFixtures

/-- Concrete oracle streams used in witnesses: every uniform draw is 1/2, every
standard-normal draw is -1, every binary choice picks `TURN_LEFT`. -/
noncomputable def rng0 : RandomState :=
  { uniforms := fun _ => 1/2
    normals := fun _ => -1
    choices := fun _ => true
    pos := 0 }

/-- A freshly constructed controller still in its settling phase. -/
noncomputable def cSettle : RandomExplorationController :=
  mkController 1 (1, 1) (-2/5, 6/5) (6/5, -2/5) (2/5) (1/10) 1 rng0 (1/10)

/-- A freshly constructed controller with `init_time = 0` (past settling) and
turn rate zero. -/
noncomputable def cLam0 : RandomExplorationController :=
  mkController 1 (1, 1) (-2/5, 6/5) (6/5, -2/5) (2/5) (1/10) 0 rng0 0

/-- A freshly constructed controller with `init_time = 0`, turn rate one, mean
turn duration zero and standard deviation one, so with `rng0` the sampled turn
duration is -1 (negative). -/
noncomputable def cTrans : RandomExplorationController :=
  mkController 1 (1, 1) (-2/5, 6/5) (6/5, -2/5) 0 1 1 rng0 0

/-- A controller caught mid-turn whose pending duration (1) has been exceeded
(elapsed 2 - 0). -/
noncomputable def cTurnRev : RandomExplorationController :=
  { random_state := rng0
    dt := 1
    init_time := 0
    curr_time := 2
    curr_state := WalkingState.TURN_LEFT
    curr_turn_duration := some 1
    curr_state_start_time := some 0
    forward_dn_drive := (1, 1)
    left_turn_dn_drive := (-2/5, 6/5)
    right_turn_dn_drive := (6/5, -2/5)
    turn_duration_mean := 2/5
    turn_duration_std := 1/10
    lambda_turn := 1 }

/-- A controller caught mid-turn whose pending duration (5) has not yet been
exceeded. -/
noncomputable def cTurnStay : RandomExplorationController :=
  { cTurnRev with curr_turn_duration := some 5 }

/-- The uniform draw 1/2 exceeds the no-change probability `exp (-1)`. -/
theorem exp_neg_one_lt_half : Real.exp (-1 : ℝ) < 1/2 := by
  have h0 : (2 : ℝ) < Real.exp 1 := lt_trans (by norm_num) Real.exp_one_gt_d9
  have h1 : Real.exp (-1 : ℝ) = (Real.exp 1)⁻¹ := Real.exp_neg 1
  rw [h1]
  have h2 : (0 : ℝ) < Real.exp 1 := Real.exp_pos 1
  have h3 : Real.exp 1 * (Real.exp 1)⁻¹ = 1 := mul_inv_cancel₀ (ne_of_gt h2)
  nlinarith [inv_pos.mpr h2]

end WitnessFixtures

/-- C1: while the pre-advance time is below `init_time`, `step` returns `FORWARD`
with the configured forward drive, increments `curr_time` by exactly `dt`, and
changes nothing else — in particular the random state is untouched, so no sample
is drawn, regardless of the seed streams. -/
theorem c1_settling_phase (c : RandomExplorationController)
    (h : c.curr_time < c.init_time) :
    step c = some (WalkingState.FORWARD, c.forward_dn_drive,
      { c with curr_time := c.curr_time + c.dt }) :=
  step_settling c h

/-- Witness for C1 at a concrete controller in its settling phase. -/
theorem c1_settling_phase_witness :
    step cSettle = some (WalkingState.FORWARD, cSettle.forward_dn_drive,
      { cSettle with curr_time := cSettle.curr_time + cSettle.dt }) :=
  c1_settling_phase cSettle (by norm_num [cSettle, mkController])

/-- C2: from `FORWARD` (past settling), exactly one uniform sample is drawn and a
transition occurs precisely when it exceeds `exp (-lambda_turn * dt)`; on
transition the turn duration is the unclamped normal sample with the configured
mean and standard deviation, the new state is the binary-choice draw between
`TURN_LEFT` and `TURN_RIGHT`, and the state start time is the pre-advance
`curr_time`; and with `lambda_turn = 0` the machine never leaves `FORWARD`
across arbitrarily many ticks. -/
theorem c2_forward_turn_rule (c : RandomExplorationController)
    (hF : c.curr_state = WalkingState.FORWARD) :
    (¬ c.random_state.uniforms c.random_state.pos >
        Real.exp (-c.lambda_turn * c.dt) →
      forwardTurnTransition c =
        { c with random_state :=
            { c.random_state with pos := c.random_state.pos + 1 } }) ∧
    (c.random_state.uniforms c.random_state.pos >
        Real.exp (-c.lambda_turn * c.dt) →
      forwardTurnTransition c =
        { c with
            random_state := { c.random_state with pos := c.random_state.pos + 3 }
            curr_turn_duration := some (c.turn_duration_mean +
              c.turn_duration_std * c.random_state.normals (c.random_state.pos + 1))
            curr_state := if c.random_state.choices (c.random_state.pos + 2)
              then WalkingState.TURN_LEFT else WalkingState.TURN_RIGHT
            curr_state_start_time := some c.curr_time }) ∧
    (c.lambda_turn = 0 →
      (∀ n, 0 ≤ c.random_state.uniforms n ∧ c.random_state.uniforms n < 1) →
      ∀ N, ∃ tr c', run c N = some (tr, c') ∧
        c'.curr_state = WalkingState.FORWARD ∧
        ∀ p, p ∈ tr → p.1 = WalkingState.FORWARD) :=
  ⟨ftt_eq_no_transition c hF, ftt_eq_transition c hF,
   fun hlam hu N => run_lam0 N c hF hlam hu⟩

/-- Witness for C2: the no-transition case at turn rate zero, the transition case
at turn rate one, and two zero-rate ticks staying in `FORWARD`. -/
theorem c2_forward_turn_rule_witness :
    (forwardTurnTransition cLam0 =
      { cLam0 with random_state :=
          { cLam0.random_state with pos := cLam0.random_state.pos + 1 } }) ∧
    (forwardTurnTransition cTrans =
      { cTrans with
          random_state := { cTrans.random_state with pos := cTrans.random_state.pos + 3 }
          curr_turn_duration := some (cTrans.turn_duration_mean +
            cTrans.turn_duration_std * cTrans.random_state.normals
              (cTrans.random_state.pos + 1))
          curr_state := if cTrans.random_state.choices (cTrans.random_state.pos + 2)
            then WalkingState.TURN_LEFT else WalkingState.TURN_RIGHT
          curr_state_start_time := some cTrans.curr_time }) ∧
    (∃ tr c', run cLam0 2 = some (tr, c') ∧
      c'.curr_state = WalkingState.FORWARD ∧
      ∀ p, p ∈ tr → p.1 = WalkingState.FORWARD) := by
  refine ⟨(c2_forward_turn_rule cLam0 rfl).1 ?_,
    (c2_forward_turn_rule cTrans rfl).2.1 ?_,
    (c2_forward_turn_rule cLam0 rfl).2.2 rfl ?_ 2⟩
  · norm_num [cLam0, mkController, rng0, Real.exp_zero]
  · have hexp := exp_neg_one_lt_half
    simp only [cTrans, mkController, rng0]
    norm_num
    exact hexp
  · intro n
    norm_num [cLam0, mkController, rng0]

/-- C3: past settling and in a turn state with pending duration `d` started at
`t0`, the call reverts to `FORWARD` (resetting the state start time to the
pre-advance time) exactly when `curr_time - t0 > d`, with both checks using the
pre-advance time and `curr_time` incremented only at the end; consequently a
negative sampled duration makes the turn revert within the very call that
started it, which returns `FORWARD` with the forward drive. -/
theorem c3_turn_exit_rule (c : RandomExplorationController)
    (hns : ¬ c.curr_time < c.init_time) :
    (∀ t0 d, (c.curr_state = WalkingState.TURN_LEFT ∨
        c.curr_state = WalkingState.TURN_RIGHT) →
      c.curr_state_start_time = some t0 → c.curr_turn_duration = some d →
      (c.curr_time - t0 > d →
        step c = some (WalkingState.FORWARD, c.forward_dn_drive,
          { c with
              curr_state := WalkingState.FORWARD
              curr_state_start_time := some c.curr_time
              curr_time := c.curr_time + c.dt })) ∧
      (¬ c.curr_time - t0 > d →
        ∃ drv, dn_drives c c.curr_state = some drv ∧
          step c = some (c.curr_state, drv,
            { c with curr_time := c.curr_time + c.dt }))) ∧
    (c.curr_state = WalkingState.FORWARD →
      c.random_state.uniforms c.random_state.pos >
        Real.exp (-c.lambda_turn * c.dt) →
      c.turn_duration_mean + c.turn_duration_std *
        c.random_state.normals (c.random_state.pos + 1) < 0 →
      step c = some (WalkingState.FORWARD, c.forward_dn_drive,
        { c with
            random_state := { c.random_state with pos := c.random_state.pos + 3 }
            curr_turn_duration := some (c.turn_duration_mean +
              c.turn_duration_std * c.random_state.normals (c.random_state.pos + 1))
            curr_state := WalkingState.FORWARD
            curr_state_start_time := some c.curr_time
            curr_time := c.curr_time + c.dt })) := by
  constructor
  · intro t0 d ht hst hd
    have hnf : c.curr_state ≠ WalkingState.FORWARD := by
      rcases ht with h | h <;> rw [h] <;> simp
    have h1 : forwardTurnTransition c = c := ftt_eq_of_not_forward c hnf
    constructor
    · intro hcmp
      have h2 : turnForwardTransition (forwardTurnTransition c) =
          some { c with
                   curr_state := WalkingState.FORWARD
                   curr_state_start_time := some c.curr_time } := by
        rw [h1]; exact tft_eq_revert c ht t0 d hst hd hcmp
      have h3 := step_post c _ c.forward_dn_drive hns h2 (by simp [dn_drives])
      exact h3
    · intro hcmp
      have h2 : turnForwardTransition (forwardTurnTransition c) = some c := by
        rw [h1]; exact tft_eq_stay c ht t0 d hst hd hcmp
      rcases ht with hL | hR
      · refine ⟨c.left_turn_dn_drive, by rw [hL]; simp [dn_drives], ?_⟩
        have h3 := step_post c c c.left_turn_dn_drive hns h2
          (by rw [hL]; simp [dn_drives])
        rw [hL] at h3 ⊢
        exact h3
      · refine ⟨c.right_turn_dn_drive, by rw [hR]; simp [dn_drives], ?_⟩
        have h3 := step_post c c c.right_turn_dn_drive hns h2
          (by rw [hR]; simp [dn_drives])
        rw [hR] at h3 ⊢
        exact h3
  · intro hF htr hneg
    have h1 := ftt_eq_transition c hF htr
    have h2 : turnForwardTransition (forwardTurnTransition c) =
        some { c with
                 random_state := { c.random_state with pos := c.random_state.pos + 3 }
                 curr_turn_duration := some (c.turn_duration_mean +
                   c.turn_duration_std * c.random_state.normals
                     (c.random_state.pos + 1))
                 curr_state := WalkingState.FORWARD
                 curr_state_start_time := some c.curr_time } := by
      rw [h1]
      have := tft_eq_revert
        ({ c with
             random_state := { c.random_state with pos := c.random_state.pos + 3 }
             curr_turn_duration := some (c.turn_duration_mean +
               c.turn_duration_std * c.random_state.normals (c.random_state.pos + 1))
             curr_state := if c.random_state.choices (c.random_state.pos + 2)
               then WalkingState.TURN_LEFT else WalkingState.TURN_RIGHT
             curr_state_start_time := some c.curr_time } :
          RandomExplorationController)
        (by by_cases hb : c.random_state.choices (c.random_state.pos + 2) <;>
          simp [hb])
        c.curr_time
        (c.turn_duration_mean + c.turn_duration_std *
          c.random_state.normals (c.random_state.pos + 1))
        rfl rfl (by simpa using hneg)
      simpa using this
    have h3 := step_post c _ c.forward_dn_drive hns h2 (by simp [dn_drives])
    exact h3

/-- Witness for C3: a finished turn reverting, an unfinished turn persisting, and
a negative sampled duration reverting within the call that started the turn. -/
theorem c3_turn_exit_rule_witness :
    (step cTurnRev = some (WalkingState.FORWARD, cTurnRev.forward_dn_drive,
      { cTurnRev with
          curr_state := WalkingState.FORWARD
          curr_state_start_time := some cTurnRev.curr_time
          curr_time := cTurnRev.curr_time + cTurnRev.dt })) ∧
    (∃ drv, dn_drives cTurnStay cTurnStay.curr_state = some drv ∧
      step cTurnStay = some (cTurnStay.curr_state, drv,
        { cTurnStay with curr_time := cTurnStay.curr_time + cTurnStay.dt })) ∧
    (step cTrans = some (WalkingState.FORWARD, cTrans.forward_dn_drive,
      { cTrans with
          random_state := { cTrans.random_state with pos := cTrans.random_state.pos + 3 }
          curr_turn_duration := some (cTrans.turn_duration_mean +
            cTrans.turn_duration_std * cTrans.random_state.normals
              (cTrans.random_state.pos + 1))
          curr_state := WalkingState.FORWARD
          curr_state_start_time := some cTrans.curr_time
          curr_time := cTrans.curr_time + cTrans.dt })) := by
  refine ⟨((c3_turn_exit_rule cTurnRev (by norm_num [cTurnRev])).1 0 1
      (Or.inl rfl) rfl rfl).1 (by norm_num [cTurnRev]),
    ((c3_turn_exit_rule cTurnStay (by norm_num [cTurnStay, cTurnRev])).1 0 5
      (Or.inl rfl) rfl rfl).2 (by norm_num [cTurnStay, cTurnRev]),
    (c3_turn_exit_rule cTrans (by norm_num [cTrans, mkController])).2 rfl ?_ ?_⟩
  · have hexp := exp_neg_one_lt_half
    simp only [cTrans, mkController, rng0]
    norm_num
    exact hexp
  · norm_num [cTrans, mkController, rng0]

/-- C5: the state/drive trace and all sampled data are a pure function of the
constructor parameters and the seed streams — two instances agreeing on every
constructed field produce identical runs of every length — and a run never
replaces the random streams fixed at construction (no reseeding). -/
theorem c5_determinism (c1 c2 : RandomExplorationController) (N : ℕ)
    (hrng : c1.random_state = c2.random_state) (hdt : c1.dt = c2.dt)
    (hit : c1.init_time = c2.init_time) (hct : c1.curr_time = c2.curr_time)
    (hcs : c1.curr_state = c2.curr_state)
    (hdur : c1.curr_turn_duration = c2.curr_turn_duration)
    (hsst : c1.curr_state_start_time = c2.curr_state_start_time)
    (hf : c1.forward_dn_drive = c2.forward_dn_drive)
    (hl : c1.left_turn_dn_drive = c2.left_turn_dn_drive)
    (hr : c1.right_turn_dn_drive = c2.right_turn_dn_drive)
    (hm : c1.turn_duration_mean = c2.turn_duration_mean)
    (hs : c1.turn_duration_std = c2.turn_duration_std)
    (hlam : c1.lambda_turn = c2.lambda_turn) :
    run c1 N = run c2 N ∧
    ∀ tr c', run c1 N = some (tr, c') →
      c'.random_state.uniforms = c1.random_state.uniforms ∧
      c'.random_state.normals = c1.random_state.normals ∧
      c'.random_state.choices = c1.random_state.choices := by
  have heq : c1 = c2 := by
    cases c1; cases c2
    congr 1
  subst heq
  exact ⟨rfl, fun tr c' h => run_streams N c1 tr c' h⟩

/-- Witness for C5 at a concrete controller and run length zero. -/
theorem c5_determinism_witness :
    run cSettle 0 = run cSettle 0 ∧
    (cSettle.random_state.uniforms = cSettle.random_state.uniforms ∧
     cSettle.random_state.normals = cSettle.random_state.normals ∧
     cSettle.random_state.choices = cSettle.random_state.choices) :=
  ⟨(c5_determinism cSettle cSettle 0 rfl rfl rfl rfl rfl rfl rfl rfl rfl rfl
      rfl rfl rfl).1,
   (c5_determinism cSettle cSettle 0 rfl rfl rfl rfl rfl rfl rfl rfl rfl rfl
      rfl rfl rfl).2 [] cSettle (by simp [run])⟩

/-- C7: from the initial `FORWARD` state, every run of any length succeeds, every
returned state is `FORWARD`, `TURN_LEFT` or `TURN_RIGHT` and never `STOP`, and the
`dn_drives` lookup at the current state is always defined even though the dict
has no `STOP` entry. -/
theorem c7_stop_unreachable (dt : ℝ) (fdd ltd rtd : ℝ × ℝ) (m s lam : ℝ)
    (rng : RandomState) (it : ℝ) (N : ℕ) :
    ∃ tr c', run (mkController dt fdd ltd rtd m s lam rng it) N = some (tr, c') ∧
      (∀ p, p ∈ tr → (p.1 = WalkingState.FORWARD ∨ p.1 = WalkingState.TURN_LEFT ∨
        p.1 = WalkingState.TURN_RIGHT) ∧ p.1 ≠ WalkingState.STOP) ∧
      (c'.curr_state = WalkingState.FORWARD ∨ c'.curr_state = WalkingState.TURN_LEFT ∨
        c'.curr_state = WalkingState.TURN_RIGHT) ∧
      c'.curr_state ≠ WalkingState.STOP ∧
      dn_drives c' c'.curr_state ≠ none := by
  have hg : GoodState (mkController dt fdd ltd rtd m s lam rng it) := by
    refine ⟨Or.inl rfl, ?_⟩
    intro ht
    simp [mkController] at ht
  obtain ⟨tr, c', hrun, hg', htr⟩ := run_good N _ hg
  refine ⟨tr, c', hrun, ?_, hg'.1, ?_, ?_⟩
  · intro p hp
    refine ⟨htr p hp, ?_⟩
    rcases htr p hp with h | h | h <;> rw [h] <;> simp
  · rcases hg'.1 with h | h | h <;> rw [h] <;> simp
  · rcases hg'.1 with h | h | h <;> rw [h] <;> simp [dn_drives]

/-- Witness for C7 at concrete constructor parameters and run length 3. -/
theorem c7_stop_unreachable_witness :
    ∃ tr c', run (mkController 1 (1, 1) (-2/5, 6/5) (6/5, -2/5) (2/5) (1/10) 1
        rng0 (1/10)) 3 = some (tr, c') ∧
      (∀ p, p ∈ tr → (p.1 = WalkingState.FORWARD ∨ p.1 = WalkingState.TURN_LEFT ∨
        p.1 = WalkingState.TURN_RIGHT) ∧ p.1 ≠ WalkingState.STOP) ∧
      (c'.curr_state = WalkingState.FORWARD ∨ c'.curr_state = WalkingState.TURN_LEFT ∨
        c'.curr_state = WalkingState.TURN_RIGHT) ∧
      c'.curr_state ≠ WalkingState.STOP ∧
      dn_drives c' c'.curr_state ≠ none :=
  c7_stop_unreachable 1 (1, 1) (-2/5, 6/5) (6/5, -2/5) (2/5) (1/10) 1 rng0 (1/10) 3

/-- C10: the construction establishes the turn-bookkeeping invariant, and under
it the turn-exit comparison of a `step` call never reads an unset attribute or
compares against `None` (the turn-to-forward block cannot raise), and every
successful `step` re-establishes the invariant. -/
theorem c10_turn_vars_invariant :
    (∀ (dt : ℝ) (fdd ltd rtd : ℝ × ℝ) (m s lam : ℝ) (rng : RandomState) (it : ℝ),
      TurnVarsSet (mkController dt fdd ltd rtd m s lam rng it)) ∧
    (∀ c, TurnVarsSet c →
      turnForwardTransition (forwardTurnTransition c) ≠ none ∧
      ∀ s d c', step c = some (s, d, c') → TurnVarsSet c') := by
  constructor
  · intro dt fdd ltd rtd m s lam rng it ht
    simp [mkController] at ht
  · intro c htv
    have htv1 : TurnVarsSet (forwardTurnTransition c) := by
      rcases ftt_state c with ⟨h1, h2, h3⟩ | ⟨h1, h2, h3⟩
      · intro ht
        rw [h1] at ht
        obtain ⟨a, b⟩ := htv ht
        rw [h2, h3]
        exact ⟨a, b⟩
      · exact fun _ => ⟨h2, h3⟩
    constructor
    · obtain ⟨c2, hm⟩ := tft_total _ htv1
      rw [hm]
      simp
    · intro s d c' hstep
      by_cases hsett : c.curr_time < c.init_time
      · rw [step_settling c hsett] at hstep
        obtain ⟨h1, h2, h3⟩ : WalkingState.FORWARD = s ∧ c.forward_dn_drive = d ∧
            { c with curr_time := c.curr_time + c.dt } = c' := by
          simpa [Prod.ext_iff] using hstep
        subst h3
        exact htv
      · unfold step at hstep
        rw [if_neg hsett] at hstep
        rcases hm : turnForwardTransition (forwardTurnTransition c) with _ | c2
        · rw [hm] at hstep; exact absurd hstep (by simp)
        · rw [hm] at hstep
          rcases hdd : dn_drives { c2 with curr_time := c2.curr_time + c2.dt }
              ({ c2 with curr_time := c2.curr_time + c2.dt } :
                RandomExplorationController).curr_state with _ | drv
          · simp only [hdd] at hstep; exact absurd hstep (by simp)
          · simp only [hdd] at hstep
            obtain ⟨h1, h2, h3⟩ : c2.curr_state = s ∧ drv = d ∧
                ({ c2 with curr_time := c2.curr_time + c2.dt } :
                  RandomExplorationController) = c' := by
              simpa [Prod.ext_iff] using hstep
            subst h3
            have htv2 : TurnVarsSet c2 := by
              rcases tft_shape _ _ hm with h | h
              · rw [h]; exact htv1
              · rw [h]
                intro ht
                simp at ht
            exact htv2

/-- Witness for C10: the invariant at a freshly constructed controller, the
non-raising turn-exit block, and preservation across one settling step. -/
theorem c10_turn_vars_invariant_witness :
    TurnVarsSet (mkController 1 (1, 1) (-2/5, 6/5) (6/5, -2/5) (2/5) (1/10) 1
      rng0 (1/10)) ∧
    turnForwardTransition (forwardTurnTransition cSettle) ≠ none ∧
    TurnVarsSet { cSettle with curr_time := cSettle.curr_time + cSettle.dt } := by
  have htvS : TurnVarsSet cSettle := by
    intro ht
    simp [cSettle, mkController] at ht
  exact ⟨c10_turn_vars_invariant.1 1 (1, 1) (-2/5, 6/5) (6/5, -2/5) (2/5) (1/10) 1
      rng0 (1/10),
    (c10_turn_vars_invariant.2 cSettle htvS).1,
    (c10_turn_vars_invariant.2 cSettle htvS).2 WalkingState.FORWARD
      cSettle.forward_dn_drive _
      (step_settling cSettle (by norm_num [cSettle, mkController]))⟩

/-- C6 counterexample: the drive command returned by `step` is not a copy — at a
concrete controller the returned array object is exactly the array stored in the
`dn_drives` dict under the returned state, and writing through it changes the
stored contents, contradicting the claim that mutation of the returned 2-vector
leaves `dn_drives` unchanged. -/
theorem c6_drive_copy_counterexample :
    stepReturnedRef cSettle = some forwardArrayId ∧
    dnDrivesRef WalkingState.FORWARD = some forwardArrayId ∧
    (writeArray (initialStore (1, 1) (-2/5, 6/5) (6/5, -2/5)) forwardArrayId
        (5, 5)).contents forwardArrayId ≠
      (initialStore (1, 1) (-2/5, 6/5) (6/5, -2/5)).contents forwardArrayId := by
  refine ⟨?_, rfl, ?_⟩
  · unfold stepReturnedRef
    rw [step_settling cSettle (by norm_num [cSettle, mkController])]
    rfl
  · simp only [writeArray, initialStore, forwardArrayId]
    norm_num [Prod.ext_iff]

/-- C6 amended: the returned drive command is the stored dict entry itself — the
returned array object is `dn_drives[returned state]` (a reference, not a copy)
and its value is exactly the stored drive value — while the controller itself
never reassigns the drive entries after construction. -/
theorem c6_drive_alias_amended (c : RandomExplorationController)
    (s : WalkingState) (d : ℝ × ℝ) (c' : RandomExplorationController)
    (h : step c = some (s, d, c')) :
    stepReturnedRef c = dnDrivesRef s ∧
    dn_drives c s = some d ∧
    c'.forward_dn_drive = c.forward_dn_drive ∧
    c'.left_turn_dn_drive = c.left_turn_dn_drive ∧
    c'.right_turn_dn_drive = c.right_turn_dn_drive := by
  have hsh := step_shape c s d c' h
  refine ⟨?_, hsh.2.2.2.2.2.2.2.2.2.2, hsh.2.2.2.1, hsh.2.2.2.2.1, hsh.2.2.2.2.2.1⟩
  unfold stepReturnedRef
  rw [h]

/-- C4: on the first call after construction the stride-difference matrix is all
zeros with the same shape as the agent-centric end-effector matrix, regardless of
the wrapped service's output; on a subsequent call it is the elementwise per-leg
difference between the current and the previous agent-centric positions; and
after every call the stored history equals the current agent-centric positions. -/
theorem c4_stride_diff (obs1 obs2 : PIObs) :
    (∀ p, p ∈ (pathIntegrationStep none obs1).1 → p = ((0:ℝ), (0:ℝ))) ∧
    (pathIntegrationStep none obs1).1.length =
      (absolute_to_relative_pos obs1.end_effectors obs1.fly
        obs1.fly_orientation).length ∧
    (pathIntegrationStep none obs1).2 =
      absolute_to_relative_pos obs1.end_effectors obs1.fly obs1.fly_orientation ∧
    (pathIntegrationStep (some (pathIntegrationStep none obs1).2) obs2).1 =
      List.zipWith (fun a b => a - b)
        (absolute_to_relative_pos obs2.end_effectors obs2.fly obs2.fly_orientation)
        (absolute_to_relative_pos obs1.end_effectors obs1.fly obs1.fly_orientation) ∧
    (pathIntegrationStep (some (pathIntegrationStep none obs1).2) obs2).2 =
      absolute_to_relative_pos obs2.end_effectors obs2.fly obs2.fly_orientation := by
  refine ⟨?_, ?_, rfl, rfl, rfl⟩
  · intro p hp
    have h0 : (pathIntegrationStep none obs1).1 =
        (absolute_to_relative_pos obs1.end_effectors obs1.fly
          obs1.fly_orientation).map (fun _ => ((0:ℝ), (0:ℝ))) := rfl
    rw [h0] at hp
    obtain ⟨a, _, ha⟩ := List.mem_map.mp hp
    exact ha.symm
  · simp [pathIntegrationStep]

/-- A concrete observation used in witnesses. -/
noncomputable def obsA : PIObs :=
  { fly := (0, 0), fly_orientation := (1, 0), end_effectors := [(1, 2)] }

/-- A second concrete observation used in witnesses. -/
noncomputable def obsB : PIObs :=
  { fly := (0, 0), fly_orientation := (1, 0), end_effectors := [(3, 5)] }

/-- Witness for C4 at concrete observations. -/
theorem c4_stride_diff_witness :
    (∀ p, p ∈ (pathIntegrationStep none obsA).1 → p = ((0:ℝ), (0:ℝ))) ∧
    (pathIntegrationStep none obsA).1.length =
      (absolute_to_relative_pos obsA.end_effectors obsA.fly
        obsA.fly_orientation).length ∧
    (pathIntegrationStep none obsA).2 =
      absolute_to_relative_pos obsA.end_effectors obsA.fly obsA.fly_orientation ∧
    (pathIntegrationStep (some (pathIntegrationStep none obsA).2) obsB).1 =
      List.zipWith (fun a b => a - b)
        (absolute_to_relative_pos obsB.end_effectors obsB.fly obsB.fly_orientation)
        (absolute_to_relative_pos obsA.end_effectors obsA.fly obsA.fly_orientation) ∧
    (pathIntegrationStep (some (pathIntegrationStep none obsA).2) obsB).2 =
      absolute_to_relative_pos obsB.end_effectors obsB.fly obsB.fly_orientation :=
  c4_stride_diff obsA obsB

/-- The rotation by the negated angle undoes the rotation by the angle. -/
theorem rotateNegAngle_rotatePoint (θ : ℝ) (p : ℝ × ℝ) :
    rotateNegAngle θ (rotatePoint θ p) = p := by
  unfold rotateNegAngle rotatePoint
  have hcs := Real.cos_sq_add_sin_sq θ
  rw [Prod.ext_iff]
  constructor
  · simp only [Real.cos_neg, Real.sin_neg]
    linear_combination p.1 * hcs
  · simp only [Real.cos_neg, Real.sin_neg]
    linear_combination p.2 * hcs

/-- Normalising a non-zero heading does not change its angle. -/
theorem headingAngle_eq_atan2 (heading : ℝ × ℝ) (hne : heading ≠ (0, 0)) :
    headingAngle heading = atan2 heading.2 heading.1 := by
  have h2 : heading.1 ≠ 0 ∨ heading.2 ≠ 0 := by
    by_contra hc
    push_neg at hc
    exact hne (Prod.ext hc.1 hc.2)
  have hpos : 0 < heading.1 ^ 2 + heading.2 ^ 2 := by
    rcases h2 with h | h
    · have h1 : 0 < heading.1 ^ 2 := by positivity
      nlinarith [sq_nonneg heading.2]
    · have h1 : 0 < heading.2 ^ 2 := by positivity
      nlinarith [sq_nonneg heading.1]
  have hnrm : 0 < Real.sqrt (heading.1 ^ 2 + heading.2 ^ 2) := Real.sqrt_pos.mpr hpos
  unfold headingAngle atan2
  have hz : (⟨heading.1 / Real.sqrt (heading.1 ^ 2 + heading.2 ^ 2),
        heading.2 / Real.sqrt (heading.1 ^ 2 + heading.2 ^ 2)⟩ : ℂ) =
      (((Real.sqrt (heading.1 ^ 2 + heading.2 ^ 2))⁻¹ : ℝ) : ℂ) *
        (⟨heading.1, heading.2⟩ : ℂ) := by
    apply Complex.ext
    · simp [Complex.mul_re, Complex.ofReal_re, Complex.ofReal_im, div_eq_inv_mul]
      refine Or.inl ?_
      rw [mul_assoc, inv_mul_cancel₀ (ne_of_gt hnrm), mul_one]
    · simp [Complex.mul_im, Complex.ofReal_re, Complex.ofReal_im, div_eq_inv_mul]
      refine Or.inl ?_
      rw [mul_assoc, inv_mul_cancel₀ (ne_of_gt hnrm), mul_one]
  rw [hz, Complex.arg_real_mul _ (inv_pos.mpr hnrm)]

/-- C8: with origin (0,0) and heading (1,0) the transform is the identity; for
any non-zero heading, points built by rotating by the heading angle (and
translating by the base) are recovered exactly by the transform's rotation by the
negated angle; and the output always has the same length (leg order preserved by
`map`) as the input. -/
theorem c8_transform_round_trip :
    (∀ pts : List (ℝ × ℝ),
      absolute_to_relative_pos pts (0, 0) (1, 0) = pts) ∧
    (∀ (pts : List (ℝ × ℝ)) (base heading : ℝ × ℝ), heading ≠ (0, 0) →
      absolute_to_relative_pos
        (pts.map (fun p => rotatePoint (atan2 heading.2 heading.1) p + base))
        base heading = pts) ∧
    (∀ (pts : List (ℝ × ℝ)) (base heading : ℝ × ℝ),
      (absolute_to_relative_pos pts base heading).length = pts.length) := by
  refine ⟨?_, ?_, ?_⟩
  · intro pts
    have hang : headingAngle ((1:ℝ), (0:ℝ)) = 0 := by
      unfold headingAngle
      norm_num [Real.sqrt_one]
      unfold atan2
      rw [show (⟨1, 0⟩ : ℂ) = (1 : ℂ) from Complex.ext (by simp) (by simp)]
      exact Complex.arg_one
    unfold absolute_to_relative_pos
    rw [hang, List.map_map]
    apply List.map_id''
    intro p
    simp [rotateNegAngle, Prod.ext_iff, Prod.fst_sub, Prod.snd_sub]
  · intro pts base heading hne
    unfold absolute_to_relative_pos
    rw [headingAngle_eq_atan2 heading hne, List.map_map, List.map_map]
    apply List.map_id''
    intro p
    simp only [Function.comp_apply]
    rw [add_sub_cancel_right]
    exact rotateNegAngle_rotatePoint (atan2 heading.2 heading.1) p
  · intro pts base heading
    unfold absolute_to_relative_pos
    simp

/-- Witness for C8 at concrete points, base and heading. -/
theorem c8_transform_round_trip_witness :
    absolute_to_relative_pos [((3:ℝ), (4:ℝ))] (0, 0) (1, 0) = [((3:ℝ), (4:ℝ))] ∧
    absolute_to_relative_pos
      ([((3:ℝ), (4:ℝ))].map (fun p =>
        rotatePoint (atan2 ((0:ℝ), (1:ℝ)).2 ((0:ℝ), (1:ℝ)).1) p + ((5:ℝ), (6:ℝ))))
      ((5:ℝ), (6:ℝ)) ((0:ℝ), (1:ℝ)) = [((3:ℝ), (4:ℝ))] ∧
    (absolute_to_relative_pos [((3:ℝ), (4:ℝ))] ((5:ℝ), (6:ℝ))
      ((0:ℝ), (1:ℝ))).length = [((3:ℝ), (4:ℝ))].length :=
  ⟨c8_transform_round_trip.1 [((3:ℝ), (4:ℝ))],
   c8_transform_round_trip.2.1 [((3:ℝ), (4:ℝ))] ((5:ℝ), (6:ℝ)) ((0:ℝ), (1:ℝ))
     (by norm_num [Prod.ext_iff]),
   c8_transform_round_trip.2.2 [((3:ℝ), (4:ℝ))] ((5:ℝ), (6:ℝ)) ((0:ℝ), (1:ℝ))⟩

/-- C9: constructing a `MovingFlyArena` succeeds exactly when `move_direction` is
one of "left", "right", "random" and `terrain` is one of "flat", "blocks"; any
other discrete option raises a `ValueError` during construction — never a silent
default. -/
theorem c9_arena_validation (terrain : String) (obj_radius : ℝ)
    (init_fly_pos : ℝ × ℝ) (move_speed : ℝ) (move_direction : String)
    (lateral_magnitude : ℝ) (randChoice : Int) :
    ((∃ a, mkMovingFlyArena terrain obj_radius init_fly_pos move_speed
        move_direction lateral_magnitude randChoice = Except.ok a) ↔
      ((move_direction = "left" ∨ move_direction = "right" ∨
        move_direction = "random") ∧ (terrain = "flat" ∨ terrain = "blocks"))) ∧
    ((∃ e, mkMovingFlyArena terrain obj_radius init_fly_pos move_speed
        move_direction lateral_magnitude randChoice = Except.error e) ↔
      ¬ ((move_direction = "left" ∨ move_direction = "right" ∨
        move_direction = "random") ∧ (terrain = "flat" ∨ terrain = "blocks"))) := by
  by_cases hl : move_direction = "left" <;>
    by_cases hr : move_direction = "right" <;>
    by_cases hrand : move_direction = "random" <;>
    by_cases ht : terrain = "flat" ∨ terrain = "blocks" <;>
    simp [mkMovingFlyArena, hl, hr, hrand, ht]

/-- Witness for C9 at concrete valid options. -/
theorem c9_arena_validation_witness :
    ((∃ a, mkMovingFlyArena "flat" 1 (5, 0) 10 "right" 2 1 = Except.ok a) ↔
      (("right" = "left" ∨ "right" = "right" ∨ "right" = "random") ∧
        ("flat" = "flat" ∨ "flat" = "blocks"))) ∧
    ((∃ e, mkMovingFlyArena "flat" 1 (5, 0) 10 "right" 2 1 = Except.error e) ↔
      ¬ (("right" = "left" ∨ "right" = "right" ∨ "right" = "random") ∧
        ("flat" = "flat" ∨ "flat" = "blocks"))) :=
  c9_arena_validation "flat" 1 (5, 0) 10 "right" 2 1

/-- Witness for the amended C6 at a concrete controller. -/
theorem c6_drive_alias_amended_witness :
    stepReturnedRef cSettle = dnDrivesRef WalkingState.FORWARD ∧
    dn_drives cSettle WalkingState.FORWARD = some cSettle.forward_dn_drive ∧
    ({ cSettle with curr_time := cSettle.curr_time + cSettle.dt } :
      RandomExplorationController).forward_dn_drive = cSettle.forward_dn_drive ∧
    ({ cSettle with curr_time := cSettle.curr_time + cSettle.dt } :
      RandomExplorationController).left_turn_dn_drive = cSettle.left_turn_dn_drive ∧
    ({ cSettle with curr_time := cSettle.curr_time + cSettle.dt } :
      RandomExplorationController).right_turn_dn_drive = cSettle.right_turn_dn_drive :=
  c6_drive_alias_amended cSettle WalkingState.FORWARD cSettle.forward_dn_drive _
    (step_settling cSettle (by norm_num [cSettle, mkController]))
